import Mathlib

/-!
Verification of the Huntaze agent-pipeline core against its source.

The embedding follows the Python sources under `src/`:
* `autogen-service/app/utils/risk.py` (`compute_risk`) and
  `autogen-service/app/main.py` (`draft` endpoint decision);
* `aifoundry/agents/orchestrator.py` (bounded retry loop);
* `aifoundry/agents/writer_agent.py` / `safeguard_agent.py`
  (run polling loop, tool-call batching, tool dispatch);
* `aifoundry/agents/cin/planner_agent.py`, `supervisor_agent.py`,
  `executor_agent.py`, `orchestrator.py` (two-gate CIN pipeline).

JSON values are modelled by the inductive `JVal`; a model reply is its raw
text together with the outcome of `json.loads` on it.  Machine floats that
occur in the sources (0.0 and 0.5 literals) are exact binary rationals and
are represented by `Rat`.
-/

/-- A JSON value, as manipulated by the Python sources.  Objects are ordered
association lists; Python dict keys are unique, which lookups below respect by
taking the first binding. -/
inductive JVal where
  | null
  | bool (b : Bool)
  | num (n : Int)
  | flo (q : Rat)
  | str (s : String)
  | arr (xs : List JVal)
  | obj (fields : List (String × JVal))

/-- First binding of key `k` in an object's field list (Python `dict.get(k)`). -/
def lookupField (k : String) : List (String × JVal) → Option JVal
  | [] => none
  | (k', v) :: rest => if k' = k then some v else lookupField k rest

/-- `v.get(k)` on a JSON value: a lookup when `v` is an object, nothing
otherwise (matching the guarded `isinstance(..., dict)` accesses in the
sources). -/
def getField : JVal → String → Option JVal
  | .obj fs, k => lookupField k fs
  | _, _ => none

/-- Python truthiness of a JSON value (`if value:`). -/
def jTruthy : JVal → Bool
  | .null => false
  | .bool b => b
  | .num n => n != 0
  | .flo q => q != 0
  | .str s => s != ""
  | .arr xs => !xs.isEmpty
  | .obj fs => !fs.isEmpty

/-- Is the value a JSON object (Python `isinstance(v, dict)`)? -/
def JVal.isObj : JVal → Bool
  | .obj _ => true
  | _ => false

/-! ## `autogen-service/app/utils/risk.py` -/

/-- The `"score"` entry of a safeguard verdict dict: absent, present but not
convertible by `int(...)` (the `except` at risk.py line 10), or converted to
the integer `n`. -/
inductive ScoreField where
  | absent
  | nonNumeric
  | num (n : Int)

/-- One infraction record; only its `"severity"` entry is consulted
(`r.get("severity", "low")`, risk.py line 13). -/
structure Infraction where
  severity : Option String

/-- The safeguard verdict dict consumed by `compute_risk`. -/
structure SafeguardJson where
  label : Option String
  score : ScoreField
  infractions : List Infraction

/-- Result dict of `compute_risk`. -/
structure RiskOut where
  label : String
  score : Int
  infractions : List Infraction

/-- `r.get("severity", "low")` for an infraction record. -/
def severityOf (r : Infraction) : String := r.severity.getD "low"

/-- `safeguard_json.get("label", "yellow")` (risk.py line 2). -/
def labelField (v : SafeguardJson) : String := v.label.getD "yellow"

/-- `{"green": 20, "yellow": 60, "red": 90}.get(label, 60)` (risk.py line 12). -/
def labelBase (label : String) : Int :=
  if label = "green" then 20
  else if label = "yellow" then 60
  else if label = "red" then 90
  else 60

/-- `compute_risk` (risk.py lines 1-15): an explicit `int(...)`-convertible
score is clamped to `[0, 100]` and returned; otherwise the label baseline plus
`min(10, 5 * number_of_high_severity_infractions)`, capped at 100. -/
def compute_risk (v : SafeguardJson) : RiskOut :=
  match v.score with
  | .num n => ⟨labelField v, max 0 (min 100 n), v.infractions⟩
  | _ =>
    let high := v.infractions.filter (fun r => severityOf r = "high")
    ⟨labelField v,
      min 100 (labelBase (labelField v) + min 10 (5 * (high.length : Int))),
      v.infractions⟩

/-! ## `autogen-service/app/main.py`, `draft` endpoint -/

/-- Default of `Settings.REVIEW_THRESHOLD` (config.py line 26). -/
def REVIEW_THRESHOLD_default : Int := 70

/-- The safeguard default used at main.py line 63 when the chat context holds
no safeguard verdict: `{"label": "yellow", "infractions": []}`. -/
def defaultSafeguard : SafeguardJson := ⟨some "yellow", .absent, []⟩

/-- Status computed by the `draft` endpoint (main.py lines 63-89): derive the
risk with `compute_risk` and return `"needs_review"` exactly when
`risk["score"] >= settings.REVIEW_THRESHOLD`, else `"ok"`.  There is no
separate check of the verdict's label. -/
def draftStatus (threshold : Int) (lastSafeguard : Option SafeguardJson) : String :=
  let sg := lastSafeguard.getD defaultSafeguard
  let risk := compute_risk sg
  if threshold ≤ risk.score then "needs_review" else "ok"

/-! helper bounds for `labelBase` -/

theorem labelBase_lb (l : String) : 20 ≤ labelBase l := by
  unfold labelBase
  split <;> [omega; split <;> [omega; split <;> omega]]

theorem labelBase_ub (l : String) : labelBase l ≤ 90 := by
  unfold labelBase
  split <;> [omega; split <;> [omega; split <;> omega]]

/-- C2: the quality gate `compute_risk` uses an explicit numeric score clamped
to `[0,100]` (in-range scores unchanged); with no explicit numeric score the
result is the label baseline (green 20, yellow 60, red 90) plus
`min(10, 5 * high_severity_count)`; and every returned score lies in
`[0,100]`. -/
theorem compute_risk_spec (v : SafeguardJson) :
    (∀ n : Int, v.score = .num n →
        (compute_risk v).score = max 0 (min 100 n) ∧
        (0 ≤ n → n ≤ 100 → (compute_risk v).score = n)) ∧
    ((∀ n : Int, v.score ≠ .num n) →
        labelField v ∈ (["green", "yellow", "red"] : List String) →
        (compute_risk v).score =
          labelBase (labelField v) +
            min 10 (5 * (((v.infractions.filter
              (fun r => severityOf r = "high")).length : Int)))) ∧
    (0 ≤ (compute_risk v).score ∧ (compute_risk v).score ≤ 100) := by
  have hlb := labelBase_lb (labelField v)
  have hub := labelBase_ub (labelField v)
  refine ⟨?_, ?_, ?_⟩
  · intro n hn
    unfold compute_risk
    rw [hn]
    exact ⟨rfl, fun h0 h100 => by simp only; omega⟩
  · intro hno _
    cases hs : v.score with
    | num n => exact absurd hs (hno n)
    | absent =>
        unfold compute_risk
        rw [hs]
        simp only
        omega
    | nonNumeric =>
        unfold compute_risk
        rw [hs]
        simp only
        omega
  · cases hs : v.score with
    | num n =>
        unfold compute_risk
        rw [hs]
        constructor <;> simp only <;> omega
    | absent =>
        unfold compute_risk
        rw [hs]
        constructor <;> simp only <;> omega
    | nonNumeric =>
        unfold compute_risk
        rw [hs]
        constructor <;> simp only <;> omega

/-- C2, witness: a red verdict with three high-severity infractions and no
explicit score gets `90 + min(10, 15) = 100`; an explicit in-range score 37 is
returned unchanged. -/
theorem compute_risk_spec_witness :
    (compute_risk ⟨some "red", .absent,
        [⟨some "high"⟩, ⟨some "high"⟩, ⟨some "high"⟩]⟩).score = 100 ∧
    (compute_risk ⟨some "yellow", .num 37, []⟩).score = 37 := by
  constructor
  · have h := (compute_risk_spec ⟨some "red", .absent,
        [⟨some "high"⟩, ⟨some "high"⟩, ⟨some "high"⟩]⟩).2.1
      (fun n hn => by cases hn) (by simp [labelField])
    simpa [labelField, labelBase, severityOf] using h
  · have h := ((compute_risk_spec ⟨some "yellow", .num 37, []⟩).1 37 rfl).2
      (by omega) (by omega)
    exact h

/-! ## Model replies

Stages receive the latest assistant message as raw text and run
`json.loads` on it.  A `ModelReply` packages the raw text together with the
outcome of that parse (`none` when `json.loads` raises). -/

/-- An assistant reply: raw text plus the result of `json.loads` on it. -/
structure ModelReply where
  text : String
  json : Option JVal

/-! ## `aifoundry/agents/cin/planner_agent.py` -/

/-- Validity of one plan item (planner_agent.py lines 67-69):
`isinstance(item, dict) and item.get("action")` is truthy. -/
def planItemValid : JVal → Bool
  | .obj fs => jTruthy ((lookupField "action" fs).getD .null)
  | _ => false

/-- The freeform-wrap fallback built at planner_agent.py line 74:
`{"plan": [{"action": "send_message", "data": {"text": text}}]}`. -/
def plannerFallback (text : String) : JVal :=
  .obj [("plan", .arr [.obj [("action", .str "send_message"),
    ("data", .obj [("text", .str text)])]])]

/-- Body of the `try` at planner_agent.py lines 61-70 applied to the parse
outcome: check that `obj["plan"]` is a list every item of which is a dict with
a truthy `"action"`, and return the parsed object; any parse or schema
failure (an exception in the `try`) yields the freeform-wrap fallback. -/
def planOfParsed (text : String) (parsed : Option JVal) : JVal :=
  match parsed with
  | some (.obj fs) =>
      match lookupField "plan" fs with
      | some (.arr items) =>
          if items.all planItemValid then .obj fs else plannerFallback text
      | _ => plannerFallback text
  | _ => plannerFallback text

/-- `CINPlannerAgent.plan` (planner_agent.py lines 61-74), given the last
assistant message: `json.loads` the text (an empty text short-circuits to
`{}`) and validate the plan schema, falling back to the freeform wrap. -/
def CINPlannerAgent.plan (reply : ModelReply) : JVal :=
  planOfParsed reply.text (if reply.text = "" then some (.obj []) else reply.json)

/-- The plan-stage schema (spec section 8, scenario D; the checks of
planner_agent.py lines 64-69): the payload is a dict whose `"plan"` entry is a
list in which every item is a dict with a truthy `"action"`. -/
def planSchemaValid : JVal → Bool
  | .obj fs =>
      match lookupField "plan" fs with
      | some (.arr items) => items.all planItemValid
      | _ => false
  | _ => false

theorem plannerFallback_valid (text : String) :
    planSchemaValid (plannerFallback text) = true := by
  simp [planSchemaValid, plannerFallback, lookupField, planItemValid, jTruthy]

theorem planOfParsed_valid (text : String) (parsed : Option JVal) :
    planSchemaValid (planOfParsed text parsed) = true := by
  unfold planOfParsed
  split
  · next fs =>
      cases hp : lookupField "plan" fs with
      | none => simp [hp, plannerFallback_valid text]
      | some v =>
          cases v with
          | arr items =>
              simp only [hp]
              by_cases hall : items.all planItemValid
              · simp [hall, planSchemaValid, hp]
              · simp [hall, plannerFallback_valid text]
          | null => simp [hp, plannerFallback_valid text]
          | bool b => simp [hp, plannerFallback_valid text]
          | num n => simp [hp, plannerFallback_valid text]
          | flo q => simp [hp, plannerFallback_valid text]
          | str s => simp [hp, plannerFallback_valid text]
          | obj fs2 => simp [hp, plannerFallback_valid text]
  · exact plannerFallback_valid text

theorem planner_always_valid (reply : ModelReply) :
    planSchemaValid (CINPlannerAgent.plan reply) = true :=
  planOfParsed_valid reply.text _

/-- C8: a planner reply that fails JSON parsing is wrapped, without failure,
into `{"plan": [{"action": "send_message", "data": {"text": raw}}]}`; that is
what happens to the plain string `"just some prose"`; and every planner
result, fallback included, validates the plan schema. -/
theorem planner_freeform_fallback (reply : ModelReply) :
    planSchemaValid (CINPlannerAgent.plan reply) = true ∧
    (reply.text ≠ "" → reply.json = none →
      CINPlannerAgent.plan reply = plannerFallback reply.text) ∧
    CINPlannerAgent.plan ⟨"just some prose", none⟩ =
      .obj [("plan", .arr [.obj [("action", .str "send_message"),
        ("data", .obj [("text", .str "just some prose")])]])] := by
  refine ⟨planner_always_valid reply, ?_, rfl⟩
  intro ht hj
  unfold CINPlannerAgent.plan
  rw [if_neg ht, hj]
  rfl

/-- C8, witness: the fallback equation discharged at the scenario-D reply
`"just some prose"` with a failed parse. -/
theorem planner_freeform_fallback_witness :
    CINPlannerAgent.plan ⟨"just some prose", none⟩ =
      plannerFallback "just some prose" :=
  (planner_freeform_fallback ⟨"just some prose", none⟩).2.1
    (by simp) rfl

/-! ## `aifoundry/agents/cin/supervisor_agent.py` -/

/-- The label check at supervisor_agent.py line 55:
`label in ("green", "yellow", "red")` where `label = obj.get("label")`. -/
def labelValidB : Option JVal → Bool
  | some (.str s) => s = "green" || s = "yellow" || s = "red"
  | _ => false

/-- The score check at supervisor_agent.py line 57:
`isinstance(score, (int, float)) and 0 <= score <= 100`.  Python booleans are
`int` instances, so `True`/`False` (1/0) pass the check as well. -/
def scoreValidB : Option JVal → Bool
  | some (.num n) => 0 ≤ n && n ≤ 100
  | some (.flo q) => 0 ≤ q && q ≤ 100
  | some (.bool _) => true
  | _ => false

/-- The conservative default built at supervisor_agent.py line 64:
`{"label": "yellow", "score": 60, "reasons": [last_text]}`. -/
def supervisorFallback (text : String) : JVal :=
  .obj [("label", .str "yellow"), ("score", .num 60),
    ("reasons", .arr [.str text])]

/-- `obj["reasons"] = []` (supervisor_agent.py line 61): replace the value of
the `"reasons"` binding.  Python dict keys are unique; replacing every binding
with that key is therefore the same operation. -/
def setReasonsEmpty (fs : List (String × JVal)) : List (String × JVal) :=
  fs.map fun p => if p.1 = "reasons" then (p.1, .arr []) else p

/-- Body of the `try` at supervisor_agent.py lines 51-62 applied to the parse
outcome: accept the object when its label is one of green/yellow/red and its
score is a number in `[0, 100]` (blanking a non-list `"reasons"`); any other
parse outcome - including an out-of-range score, which is NOT clamped here -
raises and yields the yellow default. -/
def reviewOfParsed (text : String) (parsed : Option JVal) : JVal :=
  match parsed with
  | some (.obj fs) =>
      if labelValidB (lookupField "label" fs) &&
          scoreValidB (lookupField "score" fs) then
        match lookupField "reasons" fs with
        | some (.arr _) => .obj fs
        | none => .obj fs
        | some _ => .obj (setReasonsEmpty fs)
      else supervisorFallback text
  | _ => supervisorFallback text

/-- `CINSupervisorAgent.review` (supervisor_agent.py lines 51-64), given the
last assistant message. -/
def CINSupervisorAgent.review (reply : ModelReply) : JVal :=
  reviewOfParsed reply.text (if reply.text = "" then some (.obj []) else reply.json)

/-- C10: when the supervisor reply is not parseable JSON, or parses to a
non-object, or its label is not green/yellow/red, or its score is a number
outside `[0, 100]`, `review` returns exactly
`{"label": "yellow", "score": 60, "reasons": [raw_text]}`; an out-of-range
explicit score is not clamped but replaces the whole verdict with that
default. -/
theorem supervisor_yellow_default (reply : ModelReply) :
    (reply.text ≠ "" → reply.json = none →
      CINSupervisorAgent.review reply = supervisorFallback reply.text) ∧
    (∀ fs, reply.text ≠ "" → reply.json = some (.obj fs) →
      labelValidB (lookupField "label" fs) = false →
      CINSupervisorAgent.review reply = supervisorFallback reply.text) ∧
    (∀ fs n, reply.text ≠ "" → reply.json = some (.obj fs) →
      lookupField "score" fs = some (.num n) → (n < 0 ∨ 100 < n) →
      CINSupervisorAgent.review reply = supervisorFallback reply.text) := by
  refine ⟨?_, ?_, ?_⟩
  · intro ht hj
    unfold CINSupervisorAgent.review
    rw [if_neg ht, hj]
    rfl
  · intro fs ht hj hl
    unfold CINSupervisorAgent.review reviewOfParsed
    rw [if_neg ht, hj]
    simp [hl]
  · intro fs n ht hj hsc hrange
    unfold CINSupervisorAgent.review reviewOfParsed
    rw [if_neg ht, hj]
    have : scoreValidB (lookupField "score" fs) = false := by
      rw [hsc]
      unfold scoreValidB
      simp only [Bool.and_eq_false_iff, decide_eq_false_iff_not]
      omega
    simp [this]

/-- C10, witness: a reply whose score is the out-of-range number 150 (with a
valid label `"red"`) collapses to the yellow default verdict. -/
theorem supervisor_yellow_default_witness :
    CINSupervisorAgent.review
        ⟨"over", some (.obj [("label", .str "red"), ("score", .num 150)])⟩ =
      .obj [("label", .str "yellow"), ("score", .num 60),
        ("reasons", .arr [.str "over"])] :=
  (supervisor_yellow_default
      ⟨"over", some (.obj [("label", .str "red"), ("score", .num 150)])⟩).2.2
    [("label", .str "red"), ("score", .num 150)] 150
    (by simp) rfl rfl (by omega)

/-! ## `aifoundry/agents/cin/executor_agent.py` -/

/-- Outcome of the Service Bus boundary in `CINExecutor.execute`:
`noClient` - `SERVICE_BUS_FQNS` unset, `_get_client()` returns `None`
(line 33); `sendFails` - the `try` block raises (swallowed by the bare
`except` at line 72); `sendSucceeds` - `send_messages` delivers the batch. -/
inductive SinkBehavior where
  | noClient
  | sendFails
  | sendSucceeds

/-- Return dict of `execute`: `{"acknowledged": ..., "published": ...}`. -/
structure ExecResult where
  acknowledged : Nat
  published : Nat
deriving DecidableEq

/-- Python `len(v)`: defined for lists, strings and dicts, a `TypeError` for
numbers, booleans and `None`.  `execute` calls it on the `"plan"` entry
outside any `try` (lines 34 and 74). -/
def pyLen : JVal → Except String Nat
  | .arr xs => .ok xs.length
  | .str s => .ok s.length
  | .obj fs => .ok fs.length
  | _ => .error "TypeError: object has no length"

/-- Number of Service Bus messages the loop at lines 43-68 builds without
raising: the actions value must iterate (list elements; empty strings and
dicts iterate to nothing that survives `.get`) and every iterated action must
be a dict for `action.get("action")` to work.  `none` means the `try` block
raises before `send_messages`, so `published` stays 0. -/
def msgsBuildable : JVal → Option Nat
  | .arr xs => if xs.all JVal.isObj then some xs.length else none
  | .str s => if s.length = 0 then some 0 else none
  | .obj fs => if fs.length = 0 then some 0 else none
  | _ => none

/-- `CINExecutor.execute` (executor_agent.py lines 30-74).  The actions are
`plan.get("plan", [])` when the plan is a dict, else `[]`.  With no client the
function returns `{"acknowledged": len(actions), "published": 0}` directly;
otherwise any exception inside the `try` is swallowed and `published` is the
full batch size exactly when the send succeeded (`if msgs:` skips the send for
an empty batch).  The final `len(actions)` runs outside the `try`, so a
non-sized actions value raises out of `execute`. -/
def CINExecutor.execute (sink : SinkBehavior) (plan : JVal) :
    Except String ExecResult :=
  let actions : JVal :=
    match plan with
    | .obj fs => (lookupField "plan" fs).getD (.arr [])
    | _ => .arr []
  let published : Nat :=
    match sink, msgsBuildable actions with
    | .sendSucceeds, some m => m
    | _, _ => 0
  do
    let n ← pyLen actions
    .ok ⟨n, published⟩

theorem planItemValid_isObj {item : JVal} (h : planItemValid item = true) :
    item.isObj = true := by
  cases item <;> simp_all [planItemValid, JVal.isObj]

/-- C9: on every plan whose `"plan"` entry is a list of action dicts - the
shape the planner always produces - `execute` returns normally (never
raises), with `acknowledged` the number of actions; `published` is all-or-
nothing (0 or `acknowledged`); sink misconfiguration or a publish exception
leaves `published = 0`, strictly below `acknowledged` for a nonempty plan,
visible to the caller rather than failing the pipeline. -/
theorem executor_counts (sink : SinkBehavior) (fs : List (String × JVal))
    (items : List JVal)
    (hf : lookupField "plan" fs = some (.arr items))
    (hv : items.all planItemValid = true) :
    ∃ r : ExecResult,
      CINExecutor.execute sink (.obj fs) = .ok r ∧
      r.acknowledged = items.length ∧
      (r.published = 0 ∨ r.published = r.acknowledged) ∧
      (sink ≠ .sendSucceeds → r.published = 0) ∧
      (sink = .sendSucceeds → r.published = r.acknowledged) ∧
      (sink ≠ .sendSucceeds → items ≠ [] → r.published < r.acknowledged) := by
  have hobj : items.all JVal.isObj = true := by
    rw [List.all_eq_true] at hv ⊢
    exact fun x hx => planItemValid_isObj (hv x hx)
  have hbuild : msgsBuildable ((lookupField "plan" fs).getD (.arr [])) =
      some items.length := by
    rw [hf]
    simp [msgsBuildable, hobj]
  have hlen : pyLen ((lookupField "plan" fs).getD (.arr [])) =
      .ok items.length := by
    rw [hf]
    rfl
  cases sink with
  | noClient =>
      refine ⟨⟨items.length, 0⟩, ?_, rfl, Or.inl rfl, ?_, ?_, ?_⟩
      · unfold CINExecutor.execute
        simp only [hbuild, hlen]
        rfl
      · intro _
        rfl
      · intro h
        exact SinkBehavior.noConfusion h
      · intro _ hne
        simp only
        exact List.length_pos.mpr hne
  | sendFails =>
      refine ⟨⟨items.length, 0⟩, ?_, rfl, Or.inl rfl, ?_, ?_, ?_⟩
      · unfold CINExecutor.execute
        simp only [hbuild, hlen]
        rfl
      · intro _
        rfl
      · intro h
        exact SinkBehavior.noConfusion h
      · intro _ hne
        simp only
        exact List.length_pos.mpr hne
  | sendSucceeds =>
      refine ⟨⟨items.length, items.length⟩, ?_, rfl, Or.inr rfl, ?_, ?_, ?_⟩
      · unfold CINExecutor.execute
        simp only [hbuild, hlen]
        rfl
      · intro h
        exact absurd rfl h
      · intro _
        rfl
      · intro h
        exact absurd rfl h

/-- C9, witness: a two-action plan with an unconfigured sink is acknowledged
in full and published not at all. -/
theorem executor_counts_witness :
    CINExecutor.execute .noClient
        (.obj [("plan", .arr [.obj [("action", .str "send_message")],
          .obj [("action", .str "create_ticket")]])]) =
      .ok ⟨2, 0⟩ := by
  obtain ⟨r, hr, hack, -, hpub, -, -⟩ :=
    executor_counts .noClient
      [("plan", .arr [.obj [("action", .str "send_message")],
        .obj [("action", .str "create_ticket")]])]
      [.obj [("action", .str "send_message")],
        .obj [("action", .str "create_ticket")]]
      rfl (by simp [planItemValid, lookupField, jTruthy])
  rw [hr]
  have h0 := hpub (by intro h; cases h)
  cases r
  simp_all

/-! ## `aifoundry/agents/cin/orchestrator.py` -/

/-- `(review or {}).get("label") == "red"` (orchestrator.py line 79). -/
def isRedLabel (review : JVal) : Bool :=
  match getField review "label" with
  | some (.str s) => s = "red"
  | _ => false

/-- `(post or {}).get("label") == "green"` (orchestrator.py line 88). -/
def isGreenLabel (review : JVal) : Bool :=
  match getField review "label" with
  | some (.str s) => s = "green"
  | _ => false

/-- Stage inputs of one CIN pipeline execution: the planner and supervisor
model replies (pre- and post-execution) and the Service Bus sink behaviour.
Triage and fan360 results flow into prompts only and do not steer the
control flow of `process`. -/
structure CINEnv where
  plannerReply : ModelReply
  preReply : ModelReply
  sink : SinkBehavior
  postReply : ModelReply

/-- Observable outcome of `CINAgentOrchestrator.process`: the returned
`status`, the `"executed"` entry of the returned dict (`none` when the
pre-gate halts before step 5), how many times `CINExecutor.execute` was
invoked, and how many actions the sink confirmed published. -/
structure CINOutcome where
  status : String
  executed : Option ExecResult
  executorCalls : Nat
  published : Nat
deriving DecidableEq

/-- `CINAgentOrchestrator.process` (orchestrator.py lines 61-89), from the
planner step on: plan, pre-execution supervisor review, halt with
`"needs_review"` when the review's label is `"red"` (executor not invoked),
otherwise execute the plan and let the post-execution review pick the final
status (`"ok"` exactly on a green label). -/
def CINAgentOrchestrator.process (env : CINEnv) : Except String CINOutcome :=
  let plan := CINPlannerAgent.plan env.plannerReply
  let review := CINSupervisorAgent.review env.preReply
  if isRedLabel review then
    .ok ⟨"needs_review", none, 0, 0⟩
  else do
    let r ← CINExecutor.execute env.sink plan
    let post := CINSupervisorAgent.review env.postReply
    .ok ⟨if isGreenLabel post then "ok" else "needs_review", some r, 1, r.published⟩

theorem planSchemaValid_shape {p : JVal} (h : planSchemaValid p = true) :
    ∃ fs items, p = .obj fs ∧ lookupField "plan" fs = some (.arr items) ∧
      items.all planItemValid = true := by
  cases p with
  | obj fs =>
      cases hp : lookupField "plan" fs with
      | some v =>
          cases v with
          | arr items =>
              refine ⟨fs, items, rfl, hp, ?_⟩
              simp only [planSchemaValid] at h
              rw [hp] at h
              exact h
          | null => simp only [planSchemaValid] at h; rw [hp] at h; exact absurd h (by simp)
          | bool b => simp only [planSchemaValid] at h; rw [hp] at h; exact absurd h (by simp)
          | num n => simp only [planSchemaValid] at h; rw [hp] at h; exact absurd h (by simp)
          | flo q => simp only [planSchemaValid] at h; rw [hp] at h; exact absurd h (by simp)
          | str s => simp only [planSchemaValid] at h; rw [hp] at h; exact absurd h (by simp)
          | obj fs2 => simp only [planSchemaValid] at h; rw [hp] at h; exact absurd h (by simp)
      | none => simp only [planSchemaValid] at h; rw [hp] at h; exact absurd h (by simp)
  | null => exact absurd h (by simp [planSchemaValid])
  | bool b => exact absurd h (by simp [planSchemaValid])
  | num n => exact absurd h (by simp [planSchemaValid])
  | flo q => exact absurd h (by simp [planSchemaValid])
  | str s => exact absurd h (by simp [planSchemaValid])
  | arr xs => exact absurd h (by simp [planSchemaValid])

theorem execute_valid_ok (sink : SinkBehavior) {p : JVal}
    (h : planSchemaValid p = true) :
    ∃ r, CINExecutor.execute sink p = .ok r := by
  obtain ⟨fs, items, rfl, hp, -⟩ := planSchemaValid_shape h
  unfold CINExecutor.execute
  simp only [hp, Option.getD_some]
  exact ⟨_, rfl⟩

/-- C1: whenever the pre-execution supervisor verdict carries the label
`"red"` - the pre-gate's escalation condition at orchestrator.py line 79 -
the CIN pipeline halts at once with status `"needs_review"`; the execute
stage is invoked zero times and the sink publishes nothing. -/
theorem cin_pre_gate_red_halts (env : CINEnv)
    (h : isRedLabel (CINSupervisorAgent.review env.preReply) = true) :
    CINAgentOrchestrator.process env = .ok ⟨"needs_review", none, 0, 0⟩ := by
  unfold CINAgentOrchestrator.process
  rw [if_pos h]

/-- C1, witness: a well-formed red pre-review (label `"red"`, score 90) halts
the pipeline with no executor invocation. -/
theorem cin_pre_gate_red_halts_witness :
    CINAgentOrchestrator.process
        ⟨⟨"prose", none⟩,
          ⟨"r", some (.obj [("label", .str "red"), ("score", .num 90)])⟩,
          .sendSucceeds,
          ⟨"g", some (.obj [("label", .str "green"), ("score", .num 5)])⟩⟩ =
      .ok ⟨"needs_review", none, 0, 0⟩ :=
  cin_pre_gate_red_halts _ rfl

/-- C3 (amended): the two escalation conditions live in different code paths
and are never combined.  The `draft` endpoint escalates exactly when the
normalized score reaches `REVIEW_THRESHOLD` - the verdict's label is not
consulted there - while the CIN pre-execution gate halts exactly when the
pre-review label is `"red"`, never looking at the score. -/
theorem escalation_conditions (threshold : Int) (sg : Option SafeguardJson)
    (env : CINEnv) :
    (draftStatus threshold sg = "needs_review" ↔
      threshold ≤ (compute_risk (sg.getD defaultSafeguard)).score) ∧
    ((∃ o, CINAgentOrchestrator.process env = .ok o ∧ o.executorCalls = 0) ↔
      isRedLabel (CINSupervisorAgent.review env.preReply) = true) := by
  constructor
  · unfold draftStatus
    by_cases h : threshold ≤ (compute_risk (sg.getD defaultSafeguard)).score
    · rw [if_pos h]
      simp [h]
    · rw [if_neg h]
      constructor
      · intro he
        exact absurd he (by simp)
      · intro hc
        exact absurd hc h
  · by_cases hred : isRedLabel (CINSupervisorAgent.review env.preReply) = true
    · constructor
      · intro _
        exact hred
      · intro _
        refine ⟨⟨"needs_review", none, 0, 0⟩, ?_, rfl⟩
        unfold CINAgentOrchestrator.process
        rw [if_pos hred]
    · constructor
      · rintro ⟨o, ho, hcalls⟩
        obtain ⟨r, hr⟩ :=
          execute_valid_ok env.sink (planner_always_valid env.plannerReply)
        unfold CINAgentOrchestrator.process at ho
        rw [if_neg hred, hr] at ho
        simp only [bind, Except.bind] at ho
        cases ho
        exact absurd hcalls (by simp)
      · intro h
        exact absurd h hred

/-- C3, counterexample: a verdict labelled `"red"` with explicit score 10
does not escalate in the `draft` endpoint - the pipeline answers `"ok"` at
the default threshold 70 - refuting "red escalates unconditionally,
regardless of how low its explicit numeric score is". -/
theorem escalation_red_low_score_counterexample :
    labelField ⟨some "red", .num 10, []⟩ = "red" ∧
    (compute_risk ⟨some "red", .num 10, []⟩).score = 10 ∧
    draftStatus REVIEW_THRESHOLD_default (some ⟨some "red", .num 10, []⟩) = "ok" :=
  ⟨rfl, rfl, rfl⟩

/-! ## `aifoundry/agents/orchestrator.py`, `process_message_request` -/

/-- Fields of the `DraftResponse` the retry loop produces, together with the
number of generate/validate pairs actually performed. -/
structure RetryOutcome where
  status : String
  draft : JVal
  risk : JVal
  iterations : Nat
  pairs : Nat

/-- `draft_result.get("draft", "")` (orchestrator.py line 56). -/
def iterDraft (gen : Nat → JVal) (i : Nat) : JVal :=
  (getField (gen i) "draft").getD (.str "")

/-- The verdict of iteration `i`: the safeguard validation of that
iteration's draft (orchestrator.py line 57). -/
def iterVerdict (gen : Nat → JVal) (validate : JVal → JVal) (i : Nat) : JVal :=
  validate (iterDraft gen i)

/-- The `for i in range(max_iterations)` body (orchestrator.py lines 47-66):
generate, extract the draft, validate, and return `"ok"` with
`iterations = i + 1` on a green label; falling off the loop returns
`"needs_review"` with the last draft and verdict and
`iterations = max_iterations = 3` (lines 68-74). -/
def retryFrom (gen : Nat → JVal) (validate : JVal → JVal)
    (lastDraft lastVal : JVal) (pairsDone : Nat) : List Nat → RetryOutcome
  | [] => ⟨"needs_review", lastDraft, lastVal, 3, pairsDone⟩
  | i :: rest =>
    let d := iterDraft gen i
    let v := validate d
    if isGreenLabel v then ⟨"ok", d, v, i + 1, pairsDone + 1⟩
    else retryFrom gen validate d v (pairsDone + 1) rest

/-- `HuntazeAgentOrchestrator.process_message_request` (orchestrator.py lines
44-74) with `max_iterations = 3`: the loop runs over `i = 0, 1, 2` starting
from `last_draft = ""` and `last_validation = {}`. -/
def process_message_request (gen : Nat → JVal) (validate : JVal → JVal) :
    RetryOutcome :=
  retryFrom gen validate (.str "") (.obj []) 0 [0, 1, 2]

/-- C4: the retry loop performs at most 3 generate/validate pairs; a green
verdict at the first iteration returns `"ok"` with that iteration's draft and
verdict and `iterations = 1`; more generally the first green iteration `i`
returns `"ok"` with `iterations = i + 1`; and when no iteration is green the
loop performs exactly 3 pairs and returns `"needs_review"` with the last
iteration's draft and verdict and `iterations = 3`. -/
theorem retry_loop_spec (gen : Nat → JVal) (validate : JVal → JVal) :
    (process_message_request gen validate).pairs ≤ 3 ∧
    (isGreenLabel (iterVerdict gen validate 0) = true →
      process_message_request gen validate =
        ⟨"ok", iterDraft gen 0, iterVerdict gen validate 0, 1, 1⟩) ∧
    (isGreenLabel (iterVerdict gen validate 0) = false →
      isGreenLabel (iterVerdict gen validate 1) = true →
      process_message_request gen validate =
        ⟨"ok", iterDraft gen 1, iterVerdict gen validate 1, 2, 2⟩) ∧
    (isGreenLabel (iterVerdict gen validate 0) = false →
      isGreenLabel (iterVerdict gen validate 1) = false →
      isGreenLabel (iterVerdict gen validate 2) = true →
      process_message_request gen validate =
        ⟨"ok", iterDraft gen 2, iterVerdict gen validate 2, 3, 3⟩) ∧
    (isGreenLabel (iterVerdict gen validate 0) = false →
      isGreenLabel (iterVerdict gen validate 1) = false →
      isGreenLabel (iterVerdict gen validate 2) = false →
      process_message_request gen validate =
        ⟨"needs_review", iterDraft gen 2, iterVerdict gen validate 2, 3, 3⟩) := by
  unfold process_message_request iterVerdict
  refine ⟨?_, ?_, ?_, ?_, ?_⟩
  · simp only [retryFrom, iterDraft]
    by_cases h0 : isGreenLabel (validate (iterDraft gen 0)) <;>
      simp only [iterDraft] at h0 <;> simp only [h0, if_true, if_false]
    · simp
    · by_cases h1 : isGreenLabel (validate (iterDraft gen 1)) <;>
        simp only [iterDraft] at h1 <;> simp only [h1, if_true, if_false]
      · simp
      · by_cases h2 : isGreenLabel (validate (iterDraft gen 2)) <;>
          simp only [iterDraft] at h2 <;> simp only [h2, if_true, if_false] <;> simp
  · intro h0
    simp only [retryFrom, h0, if_true]
  · intro h0 h1
    simp only [retryFrom, h0, h1, if_true, if_false, Bool.false_eq_true]
  · intro h0 h1 h2
    simp only [retryFrom, h0, h1, h2, if_true, if_false, Bool.false_eq_true]
  · intro h0 h1 h2
    simp only [retryFrom, h0, h1, h2, if_false, Bool.false_eq_true]

/-- C4, witness: a validator that always answers yellow never passes the
gate, so the loop performs exactly 3 pairs and reports `needs_review` after
3 iterations. -/
theorem retry_loop_spec_witness :
    process_message_request (fun _ => .obj [("draft", .str "d")])
        (fun _ => .obj [("label", .str "yellow")]) =
      ⟨"needs_review", .str "d", .obj [("label", .str "yellow")], 3, 3⟩ :=
  (retry_loop_spec (fun _ => .obj [("draft", .str "d")])
      (fun _ => .obj [("label", .str "yellow")])).2.2.2.2 rfl rfl rfl

/-! ## `aifoundry/agents/writer_agent.py` and `safeguard_agent.py`:
the run polling loop (writer lines 109-158, safeguard lines 98-144).

Both agents drive a run with the same loop: while the status is one of
`queued`, `in_progress`, `requires_action`, answer a pending tool-call batch
and submit it in one `submit_tool_outputs` call, or sleep and re-poll; any
other status exits the loop.  The remote service is modelled by the script of
run states the loop observes: the state returned by `create_run` followed by
the state produced by each `submit_tool_outputs`/`get_run` round trip. -/

/-- One pending tool call: `id`, `function.name`, raw `function.arguments`. -/
structure ToolCallRec where
  id : String
  name : String
  args : String
deriving DecidableEq

/-- One observed run state: still active - polling (`queued`/`in_progress`,
batch `none`) or `requires_action` with its pending batch - or exited with a
terminal status string (`completed`, `failed`, `cancelled`, `expired`). -/
inductive RunView where
  | active (batch : Option (List ToolCallRec))
  | finished (status : String)

/-- Did the loop keep running on this state? -/
def RunView.isActive : RunView → Bool
  | .active _ => true
  | .finished _ => false

/-- Remote calls the loop makes, in order. -/
inductive RunEvent where
  | poll
  | submit (outputs : List (String × String))
deriving DecidableEq

def RunEvent.isSubmit : RunEvent → Bool
  | .submit _ => true
  | .poll => false

/-- The per-batch answer loop (writer lines 120-140, safeguard lines
109-129): one `{tool_call_id, output}` pair per pending call, the output
produced by the agent's dispatch on the call's name and argument string. -/
def answerBatch (dispatch : String → String → String)
    (batch : List ToolCallRec) : List (String × String) :=
  batch.map fun tc => (tc.id, dispatch tc.name tc.args)

/-- The polling loop (writer lines 111-149): on `requires_action` submit the
whole answered batch in one call and continue with the returned run; on
`queued`/`in_progress` sleep and re-poll; on any other status exit with it.
The result is the event trace plus the terminal status - `none` when the
script is exhausted while the run is still active, i.e. the loop is still
going (it has no poll budget). -/
def driveRun (dispatch : String → String → String) :
    List RunView → List RunEvent × Option String
  | [] => ([], none)
  | .finished st :: _ => ([], some st)
  | .active (some batch) :: rest =>
      let next := driveRun dispatch rest
      (.submit (answerBatch dispatch batch) :: next.1, next.2)
  | .active none :: rest =>
      let next := driveRun dispatch rest
      (.poll :: next.1, next.2)

/-- The `requires_action` batches the run presented before terminating: those
of the active prefix of the script. -/
def raBatches (script : List RunView) : List (List ToolCallRec) :=
  (script.takeWhile RunView.isActive).filterMap fun v =>
    match v with
    | .active b => b
    | .finished _ => none

/-- Tool dispatch of `HuntazeWriterAgent.generate_message` (writer lines
133-139): route on the tool name to the two implemented handlers
(`_get_fan_context`, `_calculate_ppv_price`, closures over the stage context,
taken here as parameters); any other name is answered with the empty JSON
object to unblock the run. -/
def writerToolOutput (getFanContext calculatePpvPrice : String → String)
    (name : String) (args : String) : String :=
  if name = "get_fan_context" then getFanContext args
  else if name = "calculate_ppv_price" then calculatePpvPrice args
  else "{}"

/-- Tool dispatch of `HuntazeSafeguardAgent.validate_message` (safeguard
lines 125-129): `result = {}` unless the call names
`analyze_content_safety`. -/
def safeguardToolOutput (analyzeContentSafety : String → String)
    (name : String) (args : String) : String :=
  if name = "analyze_content_safety" then analyzeContentSafety args
  else "{}"

/-- C5: for every script of run states, the submit events of the loop's
trace are exactly one per `requires_action` batch the run presented, in
order, each carrying that whole batch's answers in a single call - never a
strict subset - and within a batch every tool call is answered exactly once,
the i-th answer carrying the i-th call's id. -/
theorem batch_submission_spec (dispatch : String → String → String)
    (script : List RunView) :
    ((driveRun dispatch script).1.filter RunEvent.isSubmit) =
      (raBatches script).map (fun b => .submit (answerBatch dispatch b)) ∧
    ∀ b : List ToolCallRec,
      (answerBatch dispatch b).map Prod.fst = b.map ToolCallRec.id := by
  constructor
  · induction script with
    | nil => rfl
    | cons v rest ih =>
        cases v with
        | finished st => rfl
        | active b =>
            cases b with
            | some batch =>
                simp only [driveRun, raBatches, List.takeWhile_cons,
                  RunView.isActive, List.filter_cons, RunEvent.isSubmit,
                  List.filterMap_cons, List.map_cons, if_true]
                exact congrArg _ (by simpa [raBatches] using ih)
            | none =>
                simp only [driveRun, raBatches, List.takeWhile_cons,
                  RunView.isActive, List.filter_cons, RunEvent.isSubmit,
                  List.filterMap_cons]
                simpa [raBatches] using ih
  · intro b
    unfold answerBatch
    rw [List.map_map]
    rfl

/-- The default dict returned when the thread has no messages (writer line
153): `{"draft": "", "rationale": "", "confidence": 0.0,
"upsell_opportunity": False, "estimated_engagement": 0.0}`. -/
def writerZeroDraft : JVal :=
  .obj [("draft", .str ""), ("rationale", .str ""), ("confidence", .flo 0),
    ("upsell_opportunity", .bool false), ("estimated_engagement", .flo 0)]

/-- The freeform wrap of an unparseable last message (writer line 158). -/
def writerFreeform (text : String) : JVal :=
  .obj [("draft", .str text), ("rationale", .str "freeform"),
    ("confidence", .flo (1 / 2)), ("upsell_opportunity", .bool false),
    ("estimated_engagement", .flo (1 / 2))]

/-- Lines 151-158 of the writer: after the loop - whatever terminal status
ended it - fetch the latest thread message and return `json.loads` of it,
falling back to the freeform wrap, or to the zero draft when the thread has
no messages. -/
def parseLastMessage : Option ModelReply → JVal
  | none => writerZeroDraft
  | some m =>
      match m.json with
      | some v => v
      | none => writerFreeform m.text

/-- `HuntazeWriterAgent.generate_message` (writer lines 109-158) as a whole:
drive the run over the observed script, then - if the loop exited at all -
return the parsed latest message.  `none` in the second component means the
loop is still polling (script exhausted with the run active); there is no
other way not to return a payload. -/
def generate_message (dispatch : String → String → String)
    (script : List RunView) (lastMsg : Option ModelReply) :
    List RunEvent × Option JVal :=
  match driveRun dispatch script with
  | (evs, some _) => (evs, some (parseLastMessage lastMsg))
  | (evs, none) => (evs, none)

/-- C6, counterexample: a run that ends `failed` (with latest thread message
the unparseable text `"oops"`) makes `generate_message` return the very same
normal freeform draft payload a `completed` run would return - a plain dict,
not a failure value - so the failure is silently masked, and no
`RunFailure`-style result distinguishable by the orchestrator exists. -/
theorem run_failure_masked_counterexample :
    generate_message (writerToolOutput (fun s => s) (fun s => s))
        [.finished "failed"] (some ⟨"oops", none⟩) =
      generate_message (writerToolOutput (fun s => s) (fun s => s))
        [.finished "completed"] (some ⟨"oops", none⟩) ∧
    generate_message (writerToolOutput (fun s => s) (fun s => s))
        [.finished "failed"] (some ⟨"oops", none⟩) =
      ([], some (writerFreeform "oops")) :=
  ⟨rfl, rfl⟩

/-- C6 (amended): the polling loop has no poll budget - after any number `n`
of consecutive `queued`/`in_progress` observations it has emitted `n` polls
and is still running, returning nothing - and whenever the loop does exit,
the returned payload is the parsed latest message regardless of the terminal
status, so `failed`/`cancelled`/`expired` runs yield a normal draft payload
(no failure value is surfaced to the owning stage). -/
theorem run_controller_no_budget (dispatch : String → String → String) :
    (∀ n : Nat, driveRun dispatch (List.replicate n (.active none)) =
        (List.replicate n .poll, none)) ∧
    (∀ script lastMsg, (generate_message dispatch script lastMsg).2 =
        ((driveRun dispatch script).2).map fun _ => parseLastMessage lastMsg) := by
  constructor
  · intro n
    induction n with
    | zero => rfl
    | succ k ih =>
        simp only [List.replicate_succ, driveRun, ih]
  · intro script lastMsg
    unfold generate_message
    rcases h : driveRun dispatch script with ⟨evs, res⟩
    cases res with
    | none => simp
    | some st => simp

/-- C7: a tool call whose name matches no implemented handler is answered
with the empty JSON object `"{}"` - by the writer's dispatch (any name other
than `get_fan_context` / `calculate_ppv_price`) and by the safeguard's (any
name other than `analyze_content_safety`) - and the run then proceeds: a
script presenting such a call and then `completed` terminates with exactly
one submit carrying `(id, "{}")`. -/
theorem unknown_tool_empty_object (g p a : String → String)
    (name args tcId : String)
    (h1 : name ≠ "get_fan_context") (h2 : name ≠ "calculate_ppv_price")
    (h3 : name ≠ "analyze_content_safety") :
    writerToolOutput g p name args = "{}" ∧
    safeguardToolOutput a name args = "{}" ∧
    driveRun (writerToolOutput g p)
        [.active (some [⟨tcId, name, args⟩]), .finished "completed"] =
      ([.submit [(tcId, "{}")]], some "completed") := by
  have hw : writerToolOutput g p name args = "{}" := by
    unfold writerToolOutput
    rw [if_neg h1, if_neg h2]
  refine ⟨hw, ?_, ?_⟩
  · unfold safeguardToolOutput
    rw [if_neg h3]
  · simp only [driveRun, answerBatch, List.map_cons, List.map_nil, hw]

/-- C7, witness: scenario C, a call named `"unknown_tool"`. -/
theorem unknown_tool_empty_object_witness :
    driveRun (writerToolOutput (fun s => s) (fun s => s))
        [.active (some [⟨"call_1", "unknown_tool", "{}"⟩]),
          .finished "completed"] =
      ([.submit [("call_1", "{}")]], some "completed") :=
  (unknown_tool_empty_object (fun s => s) (fun s => s) (fun s => s)
      "unknown_tool" "{}" "call_1"
      (by simp) (by simp) (by simp)).2.2
